import Mathlib

/-!
Verification development for the research-lead-generation pipeline
(`app/pipeline/scoring.py`, `app/pipeline/extractor.py`,
`app/pipeline/model_selector.py`).

The Python code is shallowly embedded: Python dictionaries become
association lists over a small universe `PyVal` of Python values,
machine-level side effects (object identity, in-place mutation) are made
explicit as a store of dictionaries, exceptions become `Except String`,
and the wall clock (the current calendar year) is passed explicitly.
-/

/-- Universe of Python values appearing in profile dictionaries.
Numeric values are modelled as integers (the pipeline only ever stores
integer years / scores); floats are outside the model. -/
inductive PyVal where
  | none
  | bool (b : Bool)
  | int (i : Int)
  | str (s : String)
  | list (xs : List PyVal)

/-- A Python dictionary, as an association list in insertion order. -/
abbrev Dict := List (String × PyVal)

/-- Lookup of a key (`d[k]` / `d.get(k)` yielding the stored value): the
first binding of the key wins; later bindings are shadowed, mirroring the
fact that `dictSet` updates the first binding in place. -/
def dictGet (d : Dict) (k : String) : Option PyVal :=
  match d with
  | [] => Option.none
  | (k', v) :: rest => if k' = k then some v else dictGet rest k

/-- Python `d.get(k, default)`. -/
def dictGetD (d : Dict) (k : String) (dflt : PyVal) : PyVal :=
  (dictGet d k).getD dflt

/-- Python `d[k] = v`: replaces the value of an existing key in place
(keeping its position) or appends a fresh binding at the end. -/
def dictSet (d : Dict) (k : String) (v : PyVal) : Dict :=
  match d with
  | [] => [(k, v)]
  | (k', v') :: rest => if k' = k then (k', v) :: rest else (k', v') :: dictSet rest k v

/-- Python truthiness `bool(v)` for the modelled values. -/
def pyTruthy (v : PyVal) : Bool :=
  match v with
  | .none => false
  | .bool b => b
  | .int i => i != 0
  | .str s => s != ""
  | .list xs => !xs.isEmpty

mutual

/-- Python `repr` for the modelled values, used by `str()` on lists.
Escaping inside the quoted form of strings is not modelled (no profile
field in any claim is rendered through `repr`). -/
def pyRepr (v : PyVal) : String :=
  match v with
  | .none => "None"
  | .bool b => if b then "True" else "False"
  | .int i => toString i
  | .str s => "'" ++ s ++ "'"
  | .list xs => "[" ++ String.intercalate ", " (pyReprList xs) ++ "]"

/-- Helper of `pyRepr` mapping it over the elements of a Python list. -/
def pyReprList (xs : List PyVal) : List String :=
  match xs with
  | [] => []
  | x :: rest => pyRepr x :: pyReprList rest

end

/-- Python `str(v)` for the modelled values. -/
def pyStr (v : PyVal) : String :=
  match v with
  | .none => "None"
  | .bool b => if b then "True" else "False"
  | .int i => toString i
  | .str s => s
  | .list xs => pyRepr (.list xs)

/-- Python `s.lower()` (ASCII case folding, which covers every keyword
constant in the scorer). -/
def pyLower (s : String) : String :=
  String.mk (s.data.map Char.toLower)

/-- Whether `needle` starts `hay` (list-of-characters level). -/
def startsWithL (needle hay : List Char) : Bool :=
  match needle, hay with
  | [], _ => true
  | _ :: _, [] => false
  | a :: as', b :: bs => a == b && startsWithL as' bs

/-- Python substring containment `needle in hay`. -/
def strContainsL (hay needle : List Char) : Bool :=
  if startsWithL needle hay then true
  else
    match hay with
    | [] => false
    | _ :: t => strContainsL t needle

/-- String-level wrapper for Python `needle in hay`. -/
def strContains (hay needle : String) : Bool :=
  strContainsL hay.data needle.data

/-- Python `int(s)` on a string: optional surrounding whitespace, an
optional sign, then at least one decimal digit (underscore grouping is
not modelled). Returns `Option.none` where Python raises `ValueError`. -/
def pyIntOfString (s : String) : Option Int :=
  let t := s.data.dropWhile (fun c => c.isWhitespace)
  let t := (t.reverse.dropWhile (fun c => c.isWhitespace)).reverse
  let (sign, digits) :=
    match t with
    | '-' :: rest => ((-1 : Int), rest)
    | '+' :: rest => ((1 : Int), rest)
    | _ => ((1 : Int), t)
  if digits = [] ∨ ¬ digits.all Char.isDigit then Option.none
  else some (sign * (digits.foldl (fun acc c => acc * 10 + (c.toNat - '0'.toNat : Int)) 0))

/-! ## Scoring engine (`app/pipeline/scoring.py`, class `ProfileScorer`) -/

/-- `ProfileScorer.ROLE_KEYWORDS`. -/
def ROLE_KEYWORDS : List String := ["Toxicology", "Safety", "Hepatic", "3D"]

/-- `ProfileScorer.ROLE_SCORE`. -/
def ROLE_SCORE : Int := 30

/-- `ProfileScorer.RECENT_YEARS`. -/
def RECENT_YEARS : Int := 2

/-- `ProfileScorer.RECENT_SCORE`. -/
def RECENT_SCORE : Int := 40

/-- `ProfileScorer.RESEARCH_KEYWORDS`. -/
def RESEARCH_KEYWORDS : List String := ["liver", "toxicity", "3D models", "hepatic"]

/-- `ProfileScorer.RESEARCH_SCORE`. -/
def RESEARCH_SCORE : Int := 20

/-- `ProfileScorer.HUB_LOCATIONS`. -/
def HUB_LOCATIONS : List String :=
  ["Boston", "Cambridge", "Bay Area", "Basel", "Palo Alto", "Berkeley", "San Francisco"]

/-- `ProfileScorer.LOCATION_SCORE`. -/
def LOCATION_SCORE : Int := 10

/-- Criterion 1 of `calculate_score`: `str(profile.get("title", ""))`
lowered contains some role keyword (the `break` makes the criterion
count at most once, i.e. it is an existential over the keyword list). -/
def roleScore (d : Dict) : Int :=
  let title := pyLower (pyStr (dictGetD d "title" (.str "")))
  if ROLE_KEYWORDS.any (fun kw => strContains title (pyLower kw)) then ROLE_SCORE else 0

/-- Criterion 2 of `calculate_score`: the `year` value, when truthy,
is coerced (`int(...)` on strings, integer arithmetic otherwise; `True`
counts as 1); `current_year - year <= RECENT_YEARS` earns the points.
`ValueError`/`TypeError` during coercion or subtraction are swallowed by
the `except` clause, contributing 0. -/
def recencyScore (current_year : Int) (d : Dict) : Int :=
  let y := dictGetD d "year" .none
  if pyTruthy y then
    match
      (match y with
       | .str s => pyIntOfString s
       | .int i => some i
       | .bool b => some (if b then 1 else 0)
       | _ => Option.none) with
    | some yi => if current_year - yi ≤ RECENT_YEARS then RECENT_SCORE else 0
    | Option.none => 0
  else 0

/-- Coercion of the `keywords` value into a list of lowered strings,
mirroring `if isinstance(keywords, str): keywords = [keywords]` followed
by `[k.lower() for k in keywords]`. A non-string, non-list value is not
iterable (`TypeError`), and a non-string list element has no `.lower()`
(`AttributeError`); neither is caught in the source. -/
def keywordsLower (v : PyVal) : Except String (List String) :=
  match v with
  | .str s => .ok [pyLower s]
  | .list xs =>
    xs.mapM (fun x =>
      match x with
      | .str s => .ok (pyLower s)
      | _ => .error "AttributeError: object has no attribute lower")
  | _ => .error "TypeError: object is not iterable"

/-- Criterion 3 of `calculate_score`: some research keyword is a
substring of some lowered profile keyword. -/
def researchScore (d : Dict) : Except String Int := do
  let kws ← keywordsLower (dictGetD d "keywords" (.list []))
  pure (if RESEARCH_KEYWORDS.any (fun rk => kws.any (fun kw => strContains kw (pyLower rk)))
        then RESEARCH_SCORE else 0)

/-- Criterion 4 of `calculate_score`: lowered
`str(profile.get("location", ""))` contains some hub name. -/
def locationScore (d : Dict) : Int :=
  let location := pyLower (pyStr (dictGetD d "location" (.str "")))
  if HUB_LOCATIONS.any (fun hub => strContains location (pyLower hub)) then LOCATION_SCORE else 0

/-- `ProfileScorer.calculate_score`, with the current calendar year
(`datetime.now().year`) passed explicitly. The only uncaught exception
path is a malformed `keywords` value. -/
def calculate_score (current_year : Int) (d : Dict) : Except String Int := do
  let research ← researchScore d
  pure (roleScore d + recencyScore current_year d + research + locationScore d)

/-- Sort key used by `score_profiles`:
`x.get("probability_score", 0)` (always an integer for the dictionaries
the engine actually sorts, since it has just stored an integer there). -/
def scoreKey (d : Dict) : Int :=
  match dictGet d "probability_score" with
  | some (.int n) => n
  | _ => 0

/-- Comparison passed to the stable sort: `sort(key=..., reverse=True)`
keeps `a` before `b` exactly when `scoreKey a ≥ scoreKey b`. -/
def scoreDescLe (a b : Dict) : Bool :=
  scoreKey b ≤ scoreKey a

/-- First phase of `score_profiles`: for each profile, copy it, compute
its score and store it under `"probability_score"` in the copy.
An exception from `calculate_score` aborts the whole batch. -/
def mapScores (current_year : Int) : List Dict → Except String (List Dict)
  | [] => .ok []
  | d :: ds =>
    match calculate_score current_year d with
    | .error e => .error e
    | .ok s =>
      match mapScores current_year ds with
      | .error e => .error e
      | .ok rest => .ok (dictSet d "probability_score" (.int s) :: rest)

/-- Third phase of `score_profiles`:
`for rank, profile in enumerate(scored_profiles, 1): profile["rank"] = rank`. -/
def assignRanks (n : Int) : List Dict → List Dict
  | [] => []
  | d :: ds => dictSet d "rank" (.int n) :: assignRanks (n + 1) ds

/-- `ProfileScorer.score_profiles` at the level of dictionary values:
score every profile into a fresh copy, sort the copies by score
descending with Python's stable `list.sort`, then assign 1-based ranks.
(`List.mergeSort` with `scoreDescLe` is a stable descending sort, hence
extensionally equal to `sort(key=..., reverse=True)`.) -/
def score_profiles (current_year : Int) (profiles : List Dict) : Except String (List Dict) :=
  match mapScores current_year profiles with
  | .error e => .error e
  | .ok scored => .ok (assignRanks 1 (scored.mergeSort scoreDescLe))

/-- Total view of a profile's score used in theorem statements:
the score when `calculate_score` succeeds, 0 otherwise. -/
def scoreD (current_year : Int) (d : Dict) : Int :=
  match calculate_score current_year d with
  | .ok s => s
  | .error _ => 0

/-- Total view of the first phase of `score_profiles` used in theorem
statements; agrees with `mapScores` whenever the latter succeeds. -/
def scoredView (current_year : Int) (profiles : List Dict) : List Dict :=
  profiles.map (fun d => dictSet d "probability_score" (.int (scoreD current_year d)))

/-! ## Store-level view of `score_profiles` (object identity made explicit)

Python dictionaries are heap objects: callers of `score_profiles` hold
references to the input dictionaries, so the frame property "the input
is not mutated" is stated over an explicit store. A store is a list of
dictionary objects; a reference is an index into it. `profile.copy()`
allocates a fresh object at the end of the store. -/

/-- The heap of dictionary objects. -/
abbrev Store := List Dict

/-- Read a dictionary object through a reference. -/
def storeRead (st : Store) (r : Nat) : Dict :=
  st.getD r []

/-- First loop of `score_profiles` over the store: for each referenced
profile, allocate `profile.copy()`, compute its score (on the copy) and
write `probability_score` into the copy; return the references to the
copies in input order. -/
def allocScoredCopies (current_year : Int) : Store → List Nat → Except String (Store × List Nat)
  | st, [] => .ok (st, [])
  | st, r :: rest =>
    let copy := storeRead st r
    match calculate_score current_year copy with
    | .error e => .error e
    | .ok s =>
      let copy := dictSet copy "probability_score" (.int s)
      match allocScoredCopies current_year (st ++ [copy]) rest with
      | .error e => .error e
      | .ok (st', refs) => .ok (st', st.length :: refs)

/-- Sort key of a referenced profile (`x.get("probability_score", 0)`). -/
def scoreKeyAt (st : Store) (r : Nat) : Int :=
  scoreKey (storeRead st r)

/-- Rank loop of `score_profiles` over the store: writes `rank` through
each reference, in sorted order, mutating the referenced objects. -/
def writeRanks (st : Store) : List Nat → Int → Store
  | [], _ => st
  | r :: rest, n => writeRanks (st.set r (dictSet (storeRead st r) "rank" (.int n))) rest (n + 1)

/-- `ProfileScorer.score_profiles` over the store: copy-and-score each
input reference, sort the (function-local) list of copy references by
score descending with Python's stable sort, then write ranks through the
copy references. Returns the new store and the references making up the
returned list. -/
def score_profiles_st (current_year : Int) (st : Store) (refs : List Nat) :
    Except String (Store × List Nat) :=
  match allocScoredCopies current_year st refs with
  | .error e => .error e
  | .ok (st', copies) =>
    let sorted := copies.mergeSort (fun a b => scoreKeyAt st' b ≤ scoreKeyAt st' a)
    .ok (writeRanks st' sorted 1, sorted)

/-! ## Model selector (`app/pipeline/model_selector.py`) and
extraction orchestration (`app/pipeline/extractor.py`)

Provider SDK constructors and provider invocations are external effects;
they are modelled by an environment that fixes the outcome of each
constructor and of each successive provider invocation. Exceptions are
`Except String` carrying the Python exception message. -/

/-- Handle to a constructed provider model object (`ChatOpenAI` /
`ChatGoogleGenerativeAI` instance), identified by its backend and
configured model name. -/
structure ModelHandle where
  provider : String
  name : String

/-- The environment: outcomes of the two SDK constructors, and the
outcome of the k-th provider invocation of the call (so transient
failures are expressible). -/
structure Env where
  openaiCtor : Except String Unit
  geminiCtor : Except String Unit
  runModel : Nat → ModelHandle → Except String Dict

/-- `ModelSelector` state: the two credentials (`None` when absent) and
the `current_model` marker. Model names and temperature are fixed at
construction. -/
structure Selector where
  openai_api_key : Option String
  google_api_key : Option String
  primary_model : String
  fallback_model : String
  current_model : String

/-- Truthiness of a credential (`bool(key)`): present and non-empty. -/
def keyTruthy (k : Option String) : Bool :=
  match k with
  | Option.none => false
  | some s => s != ""

/-- `ModelSelector.validate_api_keys`: availability booleans
(openai, gemini). -/
def validate_api_keys (s : Selector) : Bool × Bool :=
  (keyTruthy s.openai_api_key, keyTruthy s.google_api_key)

/-- `ModelSelector.get_primary_model`: `ValueError` when the OpenAI key
is absent, wrapped `Exception` when the SDK constructor fails, otherwise
the handle; `current_model` is set only on success. -/
def get_primary_model (env : Env) (s : Selector) : Except String (ModelHandle × Selector) :=
  if ¬ keyTruthy s.openai_api_key then
    .error ("OpenAI API key not found. " ++
      "Set OPENAI_API_KEY environment variable or pass it to constructor.")
  else
    match env.openaiCtor with
    | .error e => .error ("Failed to initialize OpenAI model: " ++ e)
    | .ok _ => .ok (⟨"openai", s.primary_model⟩, { s with current_model := "openai" })

/-- `ModelSelector.get_fallback_model`: same contract for Gemini. -/
def get_fallback_model (env : Env) (s : Selector) : Except String (ModelHandle × Selector) :=
  if ¬ keyTruthy s.google_api_key then
    .error ("Google API key not found. " ++
      "Set GOOGLE_API_KEY environment variable or pass it to constructor.")
  else
    match env.geminiCtor with
    | .error e => .error ("Failed to initialize Gemini model: " ++ e)
    | .ok _ => .ok (⟨"gemini", s.fallback_model⟩, { s with current_model := "gemini" })

/-- Message raised by `get_model_with_fallback` when no key is usable. -/
def noKeysMsg : String :=
  "No API keys available. Set either OPENAI_API_KEY or GOOGLE_API_KEY."

/-- `ModelSelector.get_model_with_fallback`: try OpenAI when its key is
truthy (any exception is caught and printed), then Gemini when its key
is truthy (an exception is re-raised combined with the last error);
reaching the end raises the generic no-keys message. -/
def get_model_with_fallback (env : Env) (s : Selector) :
    Except String (ModelHandle × String × Selector) :=
  let afterPrimary : Option (ModelHandle × Selector) :=
    if keyTruthy s.openai_api_key then
      match get_primary_model env s with
      | .ok ms => some ms
      | .error _ => Option.none
    else Option.none
  match afterPrimary with
  | some (m, s') => .ok (m, "openai", s')
  | Option.none =>
    if keyTruthy s.google_api_key then
      match get_fallback_model env s with
      | .ok (m, s') => .ok (m, "gemini", s')
      | .error e => .error ("Both OpenAI and Gemini initialization failed. Last error: " ++ e)
    else .error noKeysMsg

/-- `LLMExtractor` state observable across calls: the active model
handle, the active `model_type` and the selector. `max_retries` is the
constructor argument of the same name (stored on the instance). -/
structure ExtractorState where
  model : ModelHandle
  model_type : String
  sel : Selector
  max_retries : Nat

/-- Fallback direction chosen by `extract` after a failed attempt,
from the current `model_type` and the key availability booleans. -/
def fallbackDirection (model_type : String) (ks : Bool × Bool) : Option String :=
  if model_type = "openai" ∧ ks.2 then some "gemini"
  else if model_type = "gemini" ∧ ks.1 then some "openai"
  else Option.none

/-- Combined failure message of `extract` when the fallback path also
fails. Both occurrences of the provider label mirror the source exactly:
the first interpolates `self.model_type` as it stands when the message
is built, the second the local `fallback_model_type`. -/
def combinedErrorMsg (model_type : String) (e : String) (fb : String) (fe : String) : String :=
  "Extraction failed after trying all available models. " ++
    "Primary error (" ++ model_type ++ "): " ++ e ++ " | " ++
    "Fallback error (" ++ fb ++ "): " ++ fe

/-- One pass of `LLMExtractor.extract` (the body inside the `tenacity`
decorator): attempt the active model; on failure consult
`validate_api_keys`, pick the fallback direction, construct the fallback
model (assigning `self.model` and `self.model_type` only if construction
succeeds), run the fallback attempt, and combine errors on a second
failure. `k` numbers provider invocations; the returned counter is `k`
plus the number of invocations performed. -/
def extract_body (env : Env) (st : ExtractorState) (k : Nat) :
    Except String Dict × ExtractorState × Nat :=
  match env.runModel k st.model with
  | .ok d => (.ok d, st, k + 1)
  | .error e =>
    let ks := validate_api_keys st.sel
    match fallbackDirection st.model_type ks with
    | Option.none => (.error ("Extraction failed with " ++ st.model_type ++ ": " ++ e), st, k + 1)
    | some fb =>
      match (if fb = "gemini" then get_fallback_model env st.sel else get_primary_model env st.sel) with
      | .error ce => (.error (combinedErrorMsg st.model_type e fb ce), st, k + 1)
      | .ok (m, sel') =>
        let st' : ExtractorState := { st with model := m, model_type := fb, sel := sel' }
        match env.runModel (k + 1) m with
        | .ok d => (.ok d, st', k + 2)
        | .error fe => (.error (combinedErrorMsg st'.model_type e fb fe), st', k + 2)

/-- The `tenacity` driver around `extract`:
`stop_after_attempt(3)` re-runs the body on any exception, at most
`n` runs in total, re-raising the last error (the exponential backoff
only affects timing). State mutated by a failed pass persists into the
next pass. -/
def retryLoop (env : Env) : Nat → ExtractorState → Nat → Except String Dict × ExtractorState × Nat
  | 0, st, k => (.error "RetryError", st, k)
  | 1, st, k => extract_body env st k
  | n + 2, st, k =>
    match extract_body env st k with
    | (.ok d, st', k') => (.ok d, st', k')
    | (.error _, st', k') => retryLoop env (n + 1) st' k'

/-- A full `extract` call: the body under `stop_after_attempt(3)`. The
attempt ceiling is the literal 3 baked into the decorator; the
`max_retries` field of the state is not consulted. -/
def extract_full (env : Env) (st : ExtractorState) (k : Nat) :
    Except String Dict × ExtractorState × Nat :=
  retryLoop env 3 st k

/-! ## Response recovery parser (`LLMExtractor._parse_json`)

The parser works on lists of characters. Python's `json.loads` is an
external library routine; it is modelled below (`jsonLoads`) as a
standard JSON reader: objects, arrays, strings with the single-character
escapes, integer numerals, `true`/`false`/`null`. Unicode escapes,
fractional and exponent numerals are outside the model (no claim
exercises them), and strings reject unescaped control characters just as
the strict-mode decoder does. -/

/-- The backtick character (markdown fence delimiter). -/
def backtickChar : Char := Char.ofNat 96

/-- The three-character markdown fence. -/
def fence3 : List Char := [backtickChar, backtickChar, backtickChar]

/-- Python `str.strip` whitespace class (the characters for which
`str.isspace()` holds): tab through carriage return, the separator
controls U+001C-U+001F, the space, and the Unicode space characters
NEL, NBSP, the ogham space mark, the general-punctuation spaces
U+2000-U+200A, the line and paragraph separators, narrow NBSP, the
medium mathematical space and the ideographic space. -/
def isPySpace (c : Char) : Bool :=
  (9 ≤ c.toNat && c.toNat ≤ 13) || (28 ≤ c.toNat && c.toNat ≤ 32) ||
  c.toNat == 0x85 || c.toNat == 0xa0 || c.toNat == 0x1680 ||
  (0x2000 ≤ c.toNat && c.toNat ≤ 0x200a) || c.toNat == 0x2028 || c.toNat == 0x2029 ||
  c.toNat == 0x202f || c.toNat == 0x205f || c.toNat == 0x3000

/-- Python `s.strip()` on a character list. -/
def pyStripL (s : List Char) : List Char :=
  (((s.dropWhile isPySpace).reverse.dropWhile isPySpace)).reverse

/-- Python `s.split("\n")`. -/
def splitLines : List Char → List (List Char)
  | [] => [[]]
  | c :: cs =>
    if c = '\n' then [] :: splitLines cs
    else
      match splitLines cs with
      | [] => [[c]]
      | l :: ls => (c :: l) :: ls

/-- Python `"\n".join(lines)`. -/
def joinLines (lines : List (List Char)) : List Char :=
  List.intercalate ['\n'] lines

/-- The fence-stripping loop of `_parse_json`: skip to the first line
whose stripped form opens with a fence, collect following lines, stop at
the next fence line. -/
def mdCollect : List (List Char) → Bool → List (List Char) → List (List Char)
  | [], _, acc => acc
  | l :: rest, inj, acc =>
    if startsWithL fence3 (pyStripL l) then
      (if inj then acc else mdCollect rest true acc)
    else if inj then mdCollect rest inj (acc ++ [l])
    else mdCollect rest inj acc

/-- Markdown-fence removal of `_parse_json`: applies only when the
(already stripped) content opens with a fence; if the loop collected no
lines, fall back to dropping the first line. -/
def stripMarkdown (content : List Char) : List Char :=
  if startsWithL fence3 content then
    let lines := splitLines content
    let jl := mdCollect lines false []
    if !jl.isEmpty then pyStripL (joinLines jl)
    else
      match lines with
      | [] => content
      | l0 :: restL =>
        if startsWithL fence3 (pyStripL l0) then pyStripL (joinLines restL) else content
  else content

/-- Index of the first occurrence of a character (Python `s.find(c)`). -/
def findCharIdx (c : Char) : List Char → Option Nat
  | [] => Option.none
  | x :: xs => if x = c then some 0 else (findCharIdx c xs).map (fun n => n + 1)

/-- Index of the last occurrence of a character (Python `s.rfind(c)`). -/
def rfindCharIdx (c : Char) (s : List Char) : Option Nat :=
  (findCharIdx c s.reverse).map (fun i => s.length - 1 - i)

/-- The brace-matching walk of `_parse_json`, beginning at the first
`\x7b` (which sits at index `i` of the original content): tracks brace
depth, a backslash escapes the next character, an unescaped quote
toggles string state, and braces count only outside strings. Returns the
index of the closing brace where depth returned to zero (when the walk
broke there), with the final depth and string state. -/
def scanJson : List Char → Nat → Int → Bool → Bool → Option Nat × Int × Bool
  | [], _, brace, instr, _ => (Option.none, brace, instr)
  | c :: rest, i, brace, instr, esc =>
    if esc then scanJson rest (i + 1) brace instr false
    else if c = '\\' then scanJson rest (i + 1) brace instr true
    else if c = '"' then scanJson rest (i + 1) brace (!instr) esc
    else if instr = false ∧ c = '{' then scanJson rest (i + 1) (brace + 1) instr esc
    else if instr = false ∧ c = '}' then
      (if brace - 1 = 0 then (some i, 0, instr) else scanJson rest (i + 1) (brace - 1) instr esc)
    else scanJson rest (i + 1) brace instr esc

/-- JSON values, with objects as member lists in textual order. -/
inductive JsonV where
  | null
  | bool (b : Bool)
  | num (n : Int)
  | str (s : String)
  | arr (elems : List JsonV)
  | obj (members : List (String × JsonV))

/-- JSON inter-token whitespace. -/
def isJsonWs (c : Char) : Bool :=
  c == ' ' || c == '\t' || c == '\n' || c == '\r'

/-- Skip JSON whitespace. -/
def skipWs (cs : List Char) : List Char :=
  cs.dropWhile isJsonWs

/-- Single-character JSON string escapes. -/
def escChar (c : Char) : Option Char :=
  if c = '"' then some '"'
  else if c = '\\' then some '\\'
  else if c = '/' then some '/'
  else if c = 'b' then some '\x08'
  else if c = 'f' then some '\x0c'
  else if c = 'n' then some '\n'
  else if c = 'r' then some '\r'
  else if c = 't' then some '\t'
  else Option.none

/-- Body of a JSON string after the opening quote: literal characters up
to the closing quote, escapes resolved, unescaped control characters
rejected (strict mode). -/
def parseStrBody : List Char → Option (List Char × List Char)
  | [] => Option.none
  | c :: cs =>
    if c = '"' then some ([], cs)
    else if c = '\\' then
      match cs with
      | [] => Option.none
      | e :: cs2 =>
        match escChar e with
        | some d => (parseStrBody cs2).map (fun p => (d :: p.1, p.2))
        | Option.none => Option.none
    else if 32 ≤ c.toNat then (parseStrBody cs).map (fun p => (c :: p.1, p.2))
    else Option.none

/-- JSON integer numeral: optional minus, digits, no leading zero;
a following `.`, `e` or `E` (a fractional or exponent part) is outside
the model. -/
def parseJsonInt (cs : List Char) : Option (Int × List Char) :=
  let (sign, cs1) :=
    match cs with
    | '-' :: t => ((-1 : Int), t)
    | _ => ((1 : Int), cs)
  let digits := cs1.takeWhile Char.isDigit
  let rest := cs1.dropWhile Char.isDigit
  if digits.isEmpty then Option.none
  else if 1 < digits.length ∧ digits.headD '0' = '0' then Option.none
  else
    let v : Int := sign * digits.foldl (fun acc c => acc * 10 + (c.toNat - '0'.toNat : Int)) 0
    match rest with
    | c :: _ => if c = '.' ∨ c = 'e' ∨ c = 'E' then Option.none else some (v, rest)
    | [] => some (v, rest)

mutual

/-- JSON value parser. Fuel decreases on every recursive descent and at
least one character is consumed per unit, so `length + 1` fuel always
suffices. -/
def parseVal : Nat → List Char → Option (JsonV × List Char)
  | 0, _ => Option.none
  | fuel + 1, cs =>
    match skipWs cs with
    | [] => Option.none
    | c :: rest =>
      if c = '"' then (parseStrBody rest).map (fun p => (.str (String.mk p.1), p.2))
      else if c = '{' then
        (match skipWs rest with
         | '}' :: r2 => some (.obj [], r2)
         | cs2 => (parseMembers fuel cs2).map (fun p => (.obj p.1, p.2)))
      else if c = '[' then
        (match skipWs rest with
         | ']' :: r2 => some (.arr [], r2)
         | cs2 => (parseElems fuel cs2).map (fun p => (.arr p.1, p.2)))
      else if c = 't' then
        (match rest with
         | 'r' :: 'u' :: 'e' :: r2 => some (.bool true, r2)
         | _ => Option.none)
      else if c = 'f' then
        (match rest with
         | 'a' :: 'l' :: 's' :: 'e' :: r2 => some (.bool false, r2)
         | _ => Option.none)
      else if c = 'n' then
        (match rest with
         | 'u' :: 'l' :: 'l' :: r2 => some (.null, r2)
         | _ => Option.none)
      else (parseJsonInt (c :: rest)).map (fun p => (.num p.1, p.2))

/-- Members of a JSON object after the opening brace (non-empty case):
quoted key, colon, value, then either a comma and further members or the
closing brace. -/
def parseMembers : Nat → List Char → Option (List (String × JsonV) × List Char)
  | 0, _ => Option.none
  | fuel + 1, cs =>
    match cs with
    | '"' :: rest =>
      (match parseStrBody rest with
       | Option.none => Option.none
       | some (k, r1) =>
         match skipWs r1 with
         | ':' :: r2 =>
           (match parseVal fuel r2 with
            | Option.none => Option.none
            | some (v, r3) =>
              match skipWs r3 with
              | ',' :: r4 =>
                (parseMembers fuel (skipWs r4)).map (fun p => ((String.mk k, v) :: p.1, p.2))
              | '}' :: r4 => some ([(String.mk k, v)], r4)
              | _ => Option.none)
         | _ => Option.none)
    | _ => Option.none

/-- Elements of a JSON array after the opening bracket (non-empty case). -/
def parseElems : Nat → List Char → Option (List JsonV × List Char)
  | 0, _ => Option.none
  | fuel + 1, cs =>
    match parseVal fuel cs with
    | Option.none => Option.none
    | some (v, r1) =>
      match skipWs r1 with
      | ',' :: r2 => (parseElems fuel r2).map (fun p => (v :: p.1, p.2))
      | ']' :: r2 => some ([v], r2)
      | _ => Option.none

end

/-- Model of Python's `json.loads` on a character list: parse one value
and require only whitespace to remain. -/
def jsonLoads (cs : List Char) : Option JsonV :=
  match parseVal (cs.length + 1) cs with
  | some (v, rest) => if (skipWs rest).isEmpty then some v else Option.none
  | Option.none => Option.none

/-- The truncation repair of `_parse_json`: the candidate is everything
from the first brace on; with positive unclosed depth, close an open
string literal and append one closing brace per unit of depth. -/
def repairSlice (content : List Char) (start : Nat) (brace : Int) (instr : Bool) : List Char :=
  let js := content.drop start
  if brace > 0 then
    js ++ (if instr then ['"'] else []) ++ '\n' :: List.replicate brace.toNat '}'
  else js

/-- Diagnostic suffix of the final parse failure (the wrapped
`json.JSONDecodeError` text itself is not modelled). -/
def failMsg (content : List Char) : String :=
  "Failed to parse JSON from LLM response. Response length: " ++ toString content.length

/-- `LLMExtractor._parse_json`: strip, reject empty content, remove
markdown fences, locate the first brace, walk braces (string- and
escape-aware), slice or repair, parse; on a parse failure retry once on
the span between the first brace and the last closing brace. -/
def parse_json (content0 : List Char) : Except String JsonV :=
  let content1 := pyStripL content0
  if content1.isEmpty then
    .error ("Empty LLM response: content is empty or whitespace." ++
      " Check model availability, API keys, or prompt formatting.")
  else
    let content := stripMarkdown content1
    match findCharIdx '{' content with
    | Option.none => .error "No JSON object found in LLM response."
    | some start =>
      let scanned := scanJson (content.drop start) start 0 false false
      let json_str :=
        match scanned.1 with
        | some e =>
          if e > start then (content.drop start).take (e + 1 - start)
          else repairSlice content start scanned.2.1 scanned.2.2
        | Option.none => repairSlice content start scanned.2.1 scanned.2.2
      match jsonLoads json_str with
      | some v => .ok v
      | Option.none =>
        match findCharIdx '{' content, rfindCharIdx '}' content with
        | some si, some ei =>
          if ei > si then
            match jsonLoads ((content.drop si).take (ei + 1 - si)) with
            | some v => .ok v
            | Option.none => .error (failMsg content)
          else .error (failMsg content)
        | _, _ => .error (failMsg content)

/-- String-level entry point of the recovery parser. -/
def recover_json (s : String) : Except String JsonV :=
  parse_json s.data

/-! ## Concrete fixtures used by witnesses and counterexamples -/

/-- Whether an `Except` is a success. -/
def exceptOk {α : Type} (r : Except String α) : Bool :=
  match r with
  | .ok _ => true
  | .error _ => false

/-- A provider path is usable when its credential is truthy and its SDK
constructor succeeds. -/
def providerUsable (key : Option String) (ctor : Except String Unit) : Bool :=
  keyTruthy key && exceptOk ctor

/-- Profile of the first scoring scenario (year = the current year). -/
def scenarioHot (cy : Int) : Dict :=
  [("title", .str "Senior Toxicology Lead"), ("year", .int cy),
   ("keywords", .list [.str "Liver models"]), ("location", .str "Boston, MA")]

/-- Profile of the second scoring scenario. -/
def scenarioCold : Dict :=
  [("title", .str "Data Analyst"), ("year", .int 2015),
   ("keywords", .list [.str "marketing"]), ("location", .str "Denver")]

/-- Schema-shaped profile built from explicit field values, over an
arbitrary tail of further entries. -/
def mkProfile (t : String) (y : PyVal) (ks : List String) (l : String) (rest : Dict) : Dict :=
  ("title", .str t) :: ("year", y) :: ("keywords", .list (ks.map PyVal.str)) ::
    ("location", .str l) :: rest

/-- Batch fixture with a score tie between two distinguishable profiles. -/
def c5Profiles : List Dict :=
  [[("author_name", .str "A"), ("title", .str "Data Analyst")],
   scenarioHot 2026,
   [("author_name", .str "B"), ("title", .str "Sales Lead")]]

/-- The scored batch fixture. -/
def c5Out : List Dict :=
  assignRanks 1 ((scoredView 2026 c5Profiles).mergeSort scoreDescLe)

/-- Store fixture holding one profile object. -/
def c8Store : Store :=
  [[("title", .str "Senior Toxicology Lead"), ("keywords", .list [.str "liver"])]]

/-- Selector fixture with both credentials configured. -/
def selBothKeys : Selector :=
  ⟨some "sk-1", some "g-1", "gpt-4o", "gemini-2.5-flash", "openai"⟩

/-- Selector fixture with only the OpenAI credential configured. -/
def selOnlyOpenAI : Selector :=
  ⟨some "sk-1", Option.none, "gpt-4o", "gemini-2.5-flash", "openai"⟩

/-- Extractor fixture: active provider OpenAI, both credentials present. -/
def stOpenAI : ExtractorState :=
  ⟨⟨"openai", "gpt-4o"⟩, "openai", selBothKeys, 3⟩

/-- Environment fixture: constructors succeed, every invocation of
either provider fails (OpenAI with `E1`, Gemini with `E2`). -/
def envBothAttemptsFail : Env :=
  ⟨.ok (), .ok (), fun _ m => .error (if m.provider = "openai" then "E1" else "E2")⟩

/-- Environment fixture: the OpenAI constructor itself fails. -/
def envOpenAICtorFails : Env :=
  ⟨.error "boom", .ok (), fun _ _ => .error "unused"⟩

/-- Environment fixture: both constructors fail. -/
def envBothCtorsFail : Env :=
  ⟨.error "boom", .error "gboom", fun _ _ => .error "unused"⟩

/-- Environment fixture: invocations fail and the Gemini constructor
fails, so a fallback switch cannot complete. -/
def envGeminiCtorFails : Env :=
  ⟨.ok (), .error "ctorfail", fun _ _ => .error "E1"⟩

theorem startsWithL_self (l : List Char) : startsWithL l l = true := by
  induction l with
  | nil => rfl
  | cons c t ih => simp [startsWithL, ih]

theorem strContainsL_of_startsWith {hay needle : List Char}
    (h : startsWithL needle hay = true) : strContainsL hay needle = true := by
  rw [strContainsL.eq_def, h]
  rfl

theorem strContainsL_append_self (a e : List Char) : strContainsL (a ++ e) e = true := by
  induction a with
  | nil => exact strContainsL_of_startsWith (startsWithL_self e)
  | cons c t ih =>
    rw [List.cons_append, strContainsL.eq_def]
    split
    · rfl
    · exact ih

theorem strContains_append_right (a e : String) : strContains (a ++ e) e = true := by
  simpa [strContains] using strContainsL_append_self a.data e.data

theorem gmf_ok_openai (env : Env) (s : Selector) (ho : keyTruthy s.openai_api_key = true)
    (u : Unit) (hc : env.openaiCtor = .ok u) :
    get_model_with_fallback env s =
      .ok (⟨"openai", s.primary_model⟩, "openai", { s with current_model := "openai" }) := by
  simp [get_model_with_fallback, get_primary_model, ho, hc]

theorem gmf_openai_unusable (env : Env) (s : Selector)
    (h : providerUsable s.openai_api_key env.openaiCtor = false) :
    get_model_with_fallback env s =
      (if keyTruthy s.google_api_key then
        match get_fallback_model env s with
        | .ok (m, s') => .ok (m, "gemini", s')
        | .error e => .error ("Both OpenAI and Gemini initialization failed. Last error: " ++ e)
      else .error noKeysMsg) := by
  by_cases ho : keyTruthy s.openai_api_key = true
  · cases hc : env.openaiCtor with
    | ok u => simp [providerUsable, ho, hc, exceptOk] at h
    | error e => simp [get_model_with_fallback, get_primary_model, ho, hc]
  · rw [Bool.not_eq_true] at ho
    simp [get_model_with_fallback, ho]

theorem c3_counterexample :
    get_model_with_fallback envOpenAICtorFails selOnlyOpenAI = .error noKeysMsg ∧
    strContains noKeysMsg "boom" = false ∧
    keyTruthy selOnlyOpenAI.openai_api_key = true ∧
    envOpenAICtorFails.openaiCtor = .error "boom" ∧
    keyTruthy selOnlyOpenAI.google_api_key = false :=
  ⟨rfl, by decide, rfl, rfl, rfl⟩

theorem c3_amended (env : Env) (s : Selector) :
    (exceptOk (get_model_with_fallback env s) =
      (providerUsable s.openai_api_key env.openaiCtor ||
       providerUsable s.google_api_key env.geminiCtor)) ∧
    (∀ e, providerUsable s.openai_api_key env.openaiCtor = false →
      keyTruthy s.google_api_key = true → env.geminiCtor = .error e →
      ∃ m, get_model_with_fallback env s = .error m ∧ strContains m e = true) ∧
    (providerUsable s.openai_api_key env.openaiCtor = false →
      keyTruthy s.google_api_key = false →
      get_model_with_fallback env s = .error noKeysMsg) := by
  refine ⟨?_, ?_, ?_⟩
  · by_cases hou : providerUsable s.openai_api_key env.openaiCtor = true
    · have hou2 := hou
      simp only [providerUsable, Bool.and_eq_true] at hou2
      obtain ⟨ho, hc⟩ := hou2
      cases hcv : env.openaiCtor with
      | error e => simp [exceptOk, hcv] at hc
      | ok u =>
        rw [gmf_ok_openai env s ho u hcv]
        simp [providerUsable, exceptOk, ho]
    · rw [Bool.not_eq_true] at hou
      rw [gmf_openai_unusable env s hou, hou]
      by_cases hg : keyTruthy s.google_api_key = true
      · cases hgc : env.geminiCtor with
        | ok u =>
          simp [get_fallback_model, hg, hgc, providerUsable, exceptOk]
        | error e =>
          simp [get_fallback_model, hg, hgc, providerUsable, exceptOk]
      · rw [Bool.not_eq_true] at hg
        simp [hg, providerUsable, exceptOk]
  · intro e hou hg hgc
    rw [gmf_openai_unusable env s hou, hg]
    refine ⟨"Both OpenAI and Gemini initialization failed. Last error: " ++
      ("Failed to initialize Gemini model: " ++ e), by simp [get_fallback_model, hg, hgc], ?_⟩
    have : ("Both OpenAI and Gemini initialization failed. Last error: " ++
        ("Failed to initialize Gemini model: " ++ e)) =
        (("Both OpenAI and Gemini initialization failed. Last error: " ++
          "Failed to initialize Gemini model: ") ++ e) := by
      rw [String.append_assoc]
    rw [this]
    exact strContains_append_right _ e
  · intro hou hg
    rw [gmf_openai_unusable env s hou, hg]
    rfl

theorem c3_amended_witness :
    get_model_with_fallback envOpenAICtorFails selOnlyOpenAI = .error noKeysMsg ∧
    (∃ m, get_model_with_fallback envBothCtorsFail selBothKeys = .error m ∧
      strContains m "gboom" = true) := by
  constructor
  · exact (c3_amended envOpenAICtorFails selOnlyOpenAI).2.2 (by decide) (by decide)
  · exact (c3_amended envBothCtorsFail selBothKeys).2.1 "gboom" (by decide) (by decide) rfl

theorem c4_mislabeled_primary_error :
    (extract_body envBothAttemptsFail stOpenAI 0).1 =
      .error ("Extraction failed after trying all available models. " ++
        "Primary error (gemini): E1 | Fallback error (gemini): E2") ∧
    envBothAttemptsFail.runModel 0 stOpenAI.model = .error "E1" ∧
    stOpenAI.model_type = "openai" := by
  exact ⟨rfl, rfl, rfl⟩

theorem extract_body_invocations_le (env : Env) (st : ExtractorState) (k : Nat) :
    (extract_body env st k).2.2 ≤ k + 2 := by
  rw [extract_body]
  cases h1 : env.runModel k st.model with
  | ok d => simp
  | error e =>
    cases h2 : fallbackDirection st.model_type (validate_api_keys st.sel) with
    | none => simp [h2]
    | some fb =>
      simp only [h2]
      cases h3 : (if fb = "gemini" then get_fallback_model env st.sel
          else get_primary_model env st.sel) with
      | error ce => simp
      | ok ms =>
        obtain ⟨m, sel'⟩ := ms
        cases h4 : env.runModel (k + 1) m with
        | ok d => simp [h4]
        | error fe => simp [h4]

theorem extract_body_ignores_max_retries (env : Env) (st : ExtractorState) (mr k : Nat) :
    extract_body env { st with max_retries := mr } k =
      ((extract_body env st k).1,
       { (extract_body env st k).2.1 with max_retries := mr },
       (extract_body env st k).2.2) := by
  rw [extract_body, extract_body]
  cases h1 : env.runModel k st.model with
  | ok d => simp
  | error e =>
    simp only []
    cases h2 : fallbackDirection st.model_type (validate_api_keys st.sel) with
    | none => simp [h2]
    | some fb =>
      simp only [h2]
      cases h3 : (if fb = "gemini" then get_fallback_model env st.sel
          else get_primary_model env st.sel) with
      | error ce => simp
      | ok ms =>
        obtain ⟨m, sel'⟩ := ms
        cases h4 : env.runModel (k + 1) m with
        | ok d => simp [h4]
        | error fe => simp [h4]

theorem retryLoop_invocations_le (env : Env) (n : Nat) (st : ExtractorState) (k : Nat) :
    (retryLoop env n st k).2.2 ≤ k + 2 * n := by
  induction n generalizing st k with
  | zero => simp [retryLoop]
  | succ n ih =>
    cases n with
    | zero =>
      have := extract_body_invocations_le env st k
      rw [retryLoop]
      omega
    | succ n2 =>
      rw [retryLoop]
      have hb := extract_body_invocations_le env st k
      rcases h1 : extract_body env st k with ⟨r, st', k'⟩
      rw [h1] at hb
      have hb' : k' ≤ k + 2 := hb
      cases r with
      | ok d => exact le_trans hb' (by omega)
      | error e => exact le_trans (ih st' k') (by omega)

theorem retryLoop_ignores_max_retries (env : Env) (n : Nat) (st : ExtractorState) (k mr : Nat) :
    retryLoop env n { st with max_retries := mr } k =
      ((retryLoop env n st k).1,
       { (retryLoop env n st k).2.1 with max_retries := mr },
       (retryLoop env n st k).2.2) := by
  induction n generalizing st k with
  | zero => simp [retryLoop]
  | succ n ih =>
    cases n with
    | zero =>
      rw [retryLoop, retryLoop]
      exact extract_body_ignores_max_retries env st mr k
    | succ n2 =>
      rw [retryLoop, retryLoop]
      rw [extract_body_ignores_max_retries env st mr k]
      rcases h1 : extract_body env st k with ⟨r, st', k'⟩
      cases r with
      | ok d => simp
      | error e => simpa using ih st' k'

/-- Claim C9: the outer retry ceiling of `extract` is the literal 3 of
`stop_after_attempt(3)`: a full call performs at most 6 provider
invocations (and exactly 6 when every attempt fails with both providers
available), and the result, final state (up to the stored field itself)
and invocation count are unchanged under any `max_retries` value given
to the constructor. -/
theorem c9_retry_ceiling_fixed (env : Env) (st : ExtractorState) (k mr : Nat) :
    ((extract_full env { st with max_retries := mr } k).1 = (extract_full env st k).1 ∧
     (extract_full env { st with max_retries := mr } k).2.2 = (extract_full env st k).2.2 ∧
     (extract_full env { st with max_retries := mr } k).2.1 =
       { (extract_full env st k).2.1 with max_retries := mr }) ∧
    (extract_full env st k).2.2 ≤ k + 6 ∧
    (extract_full envBothAttemptsFail stOpenAI 0).2.2 = 6 := by
  refine ⟨?_, ?_, rfl⟩
  · have h := retryLoop_ignores_max_retries env 3 st k mr
    rw [extract_full, extract_full, h]
    exact ⟨rfl, rfl, rfl⟩
  · have h := retryLoop_invocations_le env 3 st k
    rw [extract_full]
    omega

/-- Claim C10 as stated is false: with the first attempt failing and the
Gemini credential available, a failing Gemini constructor aborts the
switch, so the active provider remains `openai` after the pass. -/
theorem c10_counterexample :
    (extract_body envGeminiCtorFails stOpenAI 0).2.1.model_type = "openai" ∧
    (extract_body envGeminiCtorFails stOpenAI 0).2.1.model.provider = "openai" ∧
    envGeminiCtorFails.runModel 0 stOpenAI.model = .error "E1" ∧
    fallbackDirection stOpenAI.model_type (validate_api_keys stOpenAI.sel) = some "gemini" ∧
    (extract_body envGeminiCtorFails stOpenAI 0).1 =
      .error (combinedErrorMsg "openai" "E1" "gemini"
        "Failed to initialize Gemini model: ctorfail") :=
  ⟨rfl, rfl, rfl, rfl, rfl⟩

/-- Amended C10: when the first attempt fails, the fallback direction is
available and the fallback model construction succeeds, the handle,
`model_type` and selector are switched before the fallback attempt runs
(the attempt is invoked on the new handle) and remain switched whatever
that attempt returns; the switch does not happen when construction
raises. -/
theorem c10_sticky_fallback_switch (env : Env) (st : ExtractorState) (k : Nat)
    (e f : String) (m : ModelHandle) (sel' : Selector)
    (h1 : env.runModel k st.model = .error e)
    (h2 : fallbackDirection st.model_type (validate_api_keys st.sel) = some f)
    (h3 : (if f = "gemini" then get_fallback_model env st.sel
           else get_primary_model env st.sel) = .ok (m, sel')) :
    (extract_body env st k).2.1.model_type = f ∧
    (extract_body env st k).2.1.model = m ∧
    (extract_body env st k).2.1.sel = sel' ∧
    (extract_body env st k).2.2 = k + 2 ∧
    (extract_body env st k).1 =
      (match env.runModel (k + 1) m with
       | .ok d => .ok d
       | .error fe => .error (combinedErrorMsg f e f fe)) := by
  rw [extract_body]
  simp only [h1, h2, h3]
  cases h4 : env.runModel (k + 1) m with
  | ok d => exact ⟨rfl, rfl, rfl, rfl, rfl⟩
  | error fe => exact ⟨rfl, rfl, rfl, rfl, rfl⟩

/-- Witness for the amended C10: both attempts fail, the state ends on
Gemini and the combined error is produced. -/
theorem c10_sticky_fallback_switch_witness :
    (extract_body envBothAttemptsFail stOpenAI 0).2.1.model_type = "gemini" ∧
    (extract_body envBothAttemptsFail stOpenAI 0).1 =
      .error (combinedErrorMsg "gemini" "E1" "gemini" "E2") := by
  have h := c10_sticky_fallback_switch envBothAttemptsFail stOpenAI 0 "E1" "gemini"
    ⟨"gemini", "gemini-2.5-flash"⟩ { selBothKeys with current_model := "gemini" } rfl rfl rfl
  refine ⟨h.1, ?_⟩
  rw [h.2.2.2.2]
  rfl

/-! ## Scoring helper lemmas -/

theorem dictGet_cons_ne (k key : String) (v : PyVal) (d : Dict) (h : k ≠ key) :
    dictGet ((k, v) :: d) key = dictGet d key := by
  simp [dictGet, h]

theorem dictGet_cons_self (k : String) (v : PyVal) (d : Dict) :
    dictGet ((k, v) :: d) k = some v := by
  simp [dictGet]

theorem roleScore_cons_ne (k : String) (v : PyVal) (d : Dict) (h : k ≠ "title") :
    roleScore ((k, v) :: d) = roleScore d := by
  simp [roleScore, dictGetD, dictGet_cons_ne k "title" v d h]

theorem recencyScore_cons_ne (cy : Int) (k : String) (v : PyVal) (d : Dict) (h : k ≠ "year") :
    recencyScore cy ((k, v) :: d) = recencyScore cy d := by
  simp [recencyScore, dictGetD, dictGet_cons_ne k "year" v d h]

theorem researchScore_cons_ne (k : String) (v : PyVal) (d : Dict) (h : k ≠ "keywords") :
    researchScore ((k, v) :: d) = researchScore d := by
  simp [researchScore, dictGetD, dictGet_cons_ne k "keywords" v d h]

theorem locationScore_cons_ne (k : String) (v : PyVal) (d : Dict) (h : k ≠ "location") :
    locationScore ((k, v) :: d) = locationScore d := by
  simp [locationScore, dictGetD, dictGet_cons_ne k "location" v d h]

theorem calculate_score_congr (cy cy' : Int) (d d' : Dict)
    (h1 : roleScore d = roleScore d') (h2 : recencyScore cy d = recencyScore cy' d')
    (h3 : researchScore d = researchScore d') (h4 : locationScore d = locationScore d') :
    calculate_score cy d = calculate_score cy' d' := by
  simp only [calculate_score, h1, h2, h3, h4]

theorem keywordsLower_strs (ks : List String) :
    keywordsLower (.list (ks.map PyVal.str)) = .ok (ks.map pyLower) := by
  induction ks with
  | nil => rfl
  | cons s t ih =>
    simp only [keywordsLower, List.map_cons, List.mapM_cons] at ih ⊢
    rw [ih]
    rfl

theorem perm_any {α : Type} {l1 l2 : List α} (h : l1.Perm l2) (p : α → Bool) :
    l1.any p = l2.any p := by
  induction h with
  | nil => rfl
  | cons a h ih => simp [List.any_cons, ih]
  | swap a b l => cases hb : p b <;> cases ha : p a <;> simp [List.any_cons, hb, ha]
  | trans h1 h2 ih1 ih2 => rw [ih1, ih2]

/-- Claim C6: `calculate_score` is the sum of the four independent rule
weights (each rule counted once); the first scenario scores exactly 100
for any non-zero current year, the second exactly 0 once the current
year is at least 2018; a missing or non-numeric year contributes 0
without raising; a string `keywords` value acts as a one-element list;
absent `title`/`location` behave as the empty string. (The recency rule
is `current_year - year ≤ 2`, from the source.) -/
theorem c6_calculate_score_rules :
    (∀ (cy : Int) (d : Dict) (n : Int), calculate_score cy d = .ok n →
      ∃ r, researchScore d = .ok r ∧
        n = roleScore d + recencyScore cy d + r + locationScore d) ∧
    (∀ cy : Int, cy ≠ 0 → calculate_score cy (scenarioHot cy) = .ok 100) ∧
    (∀ cy : Int, 2018 ≤ cy → calculate_score cy scenarioCold = .ok 0) ∧
    (∀ (cy : Int) (d : Dict), dictGet d "year" = Option.none → recencyScore cy d = 0) ∧
    (∀ (cy : Int) (d : Dict) (s : String), dictGet d "year" = some (.str s) →
      pyIntOfString s = Option.none → recencyScore cy d = 0) ∧
    (∀ (cy : Int) (d : Dict) (s : String),
      calculate_score cy (("keywords", PyVal.str s) :: d) =
        calculate_score cy (("keywords", PyVal.list [PyVal.str s]) :: d)) ∧
    (∀ (cy : Int) (d : Dict), dictGet d "title" = Option.none →
      calculate_score cy d = calculate_score cy (("title", PyVal.str "") :: d)) ∧
    (∀ (cy : Int) (d : Dict), dictGet d "location" = Option.none →
      calculate_score cy d = calculate_score cy (("location", PyVal.str "") :: d)) := by
  refine ⟨?_, ?_, ?_, ?_, ?_, ?_, ?_, ?_⟩
  · intro cy d n h
    cases hr : researchScore d with
    | error e => rw [calculate_score, hr] at h; exact absurd h (by simp [Except.bind])
    | ok r =>
      refine ⟨r, rfl, ?_⟩
      rw [calculate_score, hr] at h
      have h2 : Except.ok (roleScore d + recencyScore cy d + r + locationScore d) =
          (Except.ok n : Except String Int) := h
      exact (Except.ok.inj h2).symm
  · intro cy h
    have hrole : roleScore (scenarioHot cy) = 30 := rfl
    have hres : researchScore (scenarioHot cy) = .ok 20 := rfl
    have hloc : locationScore (scenarioHot cy) = 10 := rfl
    have hy : dictGetD (scenarioHot cy) "year" .none = .int cy := rfl
    have hrec : recencyScore cy (scenarioHot cy) = 40 := by
      rw [recencyScore, hy]
      simp [pyTruthy, bne_iff_ne, h, RECENT_YEARS, RECENT_SCORE]
    rw [calculate_score, hres]
    show Except.ok (roleScore (scenarioHot cy) + recencyScore cy (scenarioHot cy) + 20 +
      locationScore (scenarioHot cy)) = Except.ok 100
    rw [hrole, hrec, hloc]
    norm_num
  · intro cy h
    have hrole : roleScore scenarioCold = 0 := rfl
    have hres : researchScore scenarioCold = .ok 0 := rfl
    have hloc : locationScore scenarioCold = 0 := rfl
    have hy : dictGetD scenarioCold "year" .none = .int 2015 := rfl
    have hrec : recencyScore cy scenarioCold = 0 := by
      rw [recencyScore, hy]
      have hne : ¬ (cy - 2015 ≤ RECENT_YEARS) := by simp [RECENT_YEARS]; omega
      simp [pyTruthy, hne]
    rw [calculate_score, hres]
    show Except.ok (roleScore scenarioCold + recencyScore cy scenarioCold + 0 +
      locationScore scenarioCold) = Except.ok 0
    rw [hrole, hrec, hloc]
    norm_num
  · intro cy d h
    rw [recencyScore]
    simp [dictGetD, h, pyTruthy]
  · intro cy d s h1 h2
    rw [recencyScore]
    simp only [dictGetD, h1, Option.getD]
    by_cases hs : s = ""
    · simp [pyTruthy, hs]
    · simp [pyTruthy, hs, h2]
  · intro cy d s
    refine calculate_score_congr cy cy _ _ ?_ ?_ ?_ ?_
    · rw [roleScore_cons_ne _ _ _ (by decide), roleScore_cons_ne _ _ _ (by decide)]
    · rw [recencyScore_cons_ne _ _ _ _ (by decide), recencyScore_cons_ne _ _ _ _ (by decide)]
    · simp only [researchScore, dictGetD, dictGet_cons_self, Option.getD_some]
      have : keywordsLower (PyVal.str s) = keywordsLower (PyVal.list [PyVal.str s]) := by
        simpa [keywordsLower] using (keywordsLower_strs [s]).symm
      rw [this]
    · rw [locationScore_cons_ne _ _ _ (by decide), locationScore_cons_ne _ _ _ (by decide)]
  · intro cy d h
    refine calculate_score_congr cy cy _ _ ?_ ?_ ?_ ?_
    · simp [roleScore, dictGetD, h, dictGet_cons_self]
    · rw [recencyScore_cons_ne _ _ _ _ (by decide)]
    · rw [researchScore_cons_ne _ _ _ (by decide)]
    · rw [locationScore_cons_ne _ _ _ (by decide)]
  · intro cy d h
    refine calculate_score_congr cy cy _ _ ?_ ?_ ?_ ?_
    · rw [roleScore_cons_ne _ _ _ (by decide)]
    · rw [recencyScore_cons_ne _ _ _ _ (by decide)]
    · rw [researchScore_cons_ne _ _ _ (by decide)]
    · simp [locationScore, dictGetD, h, dictGet_cons_self]

/-- Witness for C6 at concrete inputs (current year 2026). -/
theorem c6_calculate_score_rules_witness :
    calculate_score 2026 (scenarioHot 2026) = .ok 100 ∧
    calculate_score 2026 scenarioCold = .ok 0 ∧
    recencyScore 2026 [("title", PyVal.str "x")] = 0 ∧
    recencyScore 2026 [("year", PyVal.str "unknown")] = 0 ∧
    calculate_score 2026 (("keywords", PyVal.str "liver") :: scenarioCold) =
      calculate_score 2026 (("keywords", PyVal.list [PyVal.str "liver"]) :: scenarioCold) ∧
    calculate_score 2026 [] = calculate_score 2026 [("title", PyVal.str "")] ∧
    calculate_score 2026 [] = calculate_score 2026 [("location", PyVal.str "")] := by
  have h := c6_calculate_score_rules
  exact ⟨h.2.1 2026 (by norm_num), h.2.2.1 2026 (by norm_num),
    h.2.2.2.1 2026 _ rfl, h.2.2.2.2.1 2026 _ "unknown" rfl rfl,
    h.2.2.2.2.2.1 2026 scenarioCold "liver", h.2.2.2.2.2.2.1 2026 [] rfl,
    h.2.2.2.2.2.2.2 2026 [] rfl⟩

/-- Claim C7: the score of a schema-shaped profile is invariant under a
permutation of the `keywords` entries and under case changes of the
`title` and `location` strings (two profiles with case-insensitively
equal title and location and permuted keywords score equally). -/
theorem c7_score_invariance (cy : Int) (rest : Dict) (t t' l l' : String) (y : PyVal)
    (ks ks' : List String)
    (ht : pyLower t' = pyLower t) (hl : pyLower l' = pyLower l) (hk : ks'.Perm ks) :
    calculate_score cy (mkProfile t y ks l rest) =
      calculate_score cy (mkProfile t' y ks' l' rest) := by
  refine calculate_score_congr cy cy _ _ ?_ rfl ?_ ?_
  · have e1 : roleScore (mkProfile t y ks l rest) =
        (if ROLE_KEYWORDS.any (fun kw => strContains (pyLower t) (pyLower kw))
         then ROLE_SCORE else 0) := rfl
    have e2 : roleScore (mkProfile t' y ks' l' rest) =
        (if ROLE_KEYWORDS.any (fun kw => strContains (pyLower t') (pyLower kw))
         then ROLE_SCORE else 0) := rfl
    rw [e1, e2, ht]
  · have hkw : dictGetD (mkProfile t y ks l rest) "keywords" (.list []) =
        .list (ks.map PyVal.str) := rfl
    have hkw' : dictGetD (mkProfile t' y ks' l' rest) "keywords" (.list []) =
        .list (ks'.map PyVal.str) := rfl
    rw [researchScore, researchScore, hkw, hkw', keywordsLower_strs, keywordsLower_strs]
    have hin : (fun rk => (ks'.map pyLower).any (fun kw => strContains kw (pyLower rk))) =
        (fun rk => (ks.map pyLower).any (fun kw => strContains kw (pyLower rk))) :=
      funext (fun rk => perm_any (hk.map pyLower) _)
    show Except.ok _ = Except.ok _
    rw [hin]
  · have e1 : locationScore (mkProfile t y ks l rest) =
        (if HUB_LOCATIONS.any (fun hub => strContains (pyLower l) (pyLower hub))
         then LOCATION_SCORE else 0) := rfl
    have e2 : locationScore (mkProfile t' y ks' l' rest) =
        (if HUB_LOCATIONS.any (fun hub => strContains (pyLower l') (pyLower hub))
         then LOCATION_SCORE else 0) := rfl
    rw [e1, e2, hl]

/-- Witness for C7 at concrete inputs. -/
theorem c7_score_invariance_witness :
    calculate_score 2026
      (mkProfile "Hepatic Safety Lead" (PyVal.int 2026) ["3D models", "liver"] "Boston" []) =
    calculate_score 2026
      (mkProfile "hEPATIC sAFETY lEAD" (PyVal.int 2026) ["liver", "3D models"] "bOSTON" []) :=
  c7_score_invariance 2026 [] "Hepatic Safety Lead" "hEPATIC sAFETY lEAD" "Boston" "bOSTON"
    (PyVal.int 2026) ["3D models", "liver"] ["liver", "3D models"]
    (by decide) (by decide) (by decide)

/-! ## Batch scoring lemmas (C5) -/

theorem dictGet_dictSet_self (d : Dict) (k : String) (v : PyVal) :
    dictGet (dictSet d k v) k = some v := by
  induction d with
  | nil => simp [dictSet, dictGet]
  | cons kv rest ih =>
    obtain ⟨k', v'⟩ := kv
    by_cases h : k' = k
    · simp [dictSet, dictGet, h]
    · simp [dictSet, dictGet, h, ih]

theorem dictGet_dictSet_ne (d : Dict) (k key : String) (v : PyVal) (h : k ≠ key) :
    dictGet (dictSet d k v) key = dictGet d key := by
  induction d with
  | nil => simp [dictSet, dictGet, h]
  | cons kv rest ih =>
    obtain ⟨k', v'⟩ := kv
    by_cases h2 : k' = k
    · subst h2
      simp [dictSet, dictGet, h]
    · simp [dictSet, dictGet, h2, ih]

theorem scoreKey_dictSet_rank (d : Dict) (v : PyVal) :
    scoreKey (dictSet d "rank" v) = scoreKey d := by
  rw [scoreKey, scoreKey, dictGet_dictSet_ne d "rank" "probability_score" v (by decide)]

theorem mapScores_ok (cy : Int) (ps : List Dict) (l : List Dict)
    (h : mapScores cy ps = .ok l) : l = scoredView cy ps := by
  induction ps generalizing l with
  | nil =>
    rw [mapScores] at h
    cases h
    rfl
  | cons d rest ih =>
    rw [mapScores] at h
    cases hc : calculate_score cy d with
    | error e => rw [hc] at h; cases h
    | ok s =>
      rw [hc] at h
      cases hm : mapScores cy rest with
      | error e => rw [hm] at h; cases h
      | ok tl =>
        rw [hm] at h
        cases h
        rw [scoredView, List.map_cons]
        have : scoreD cy d = s := by rw [scoreD, hc]
        rw [this]
        have := ih tl hm
        rw [scoredView] at this
        rw [← this]

theorem assignRanks_length (n : Int) (l : List Dict) :
    (assignRanks n l).length = l.length := by
  induction l generalizing n with
  | nil => rfl
  | cons d rest ih => simp [assignRanks, ih]

theorem assignRanks_getElem (l : List Dict) (n : Int) (i : Nat)
    (h1 : i < (assignRanks n l).length) (h2 : i < l.length) :
    (assignRanks n l).get ⟨i, h1⟩ = dictSet (l.get ⟨i, h2⟩) "rank" (.int (n + i)) := by
  induction l generalizing n i with
  | nil => exact absurd h2 (by simp)
  | cons d rest ih =>
    cases i with
    | zero => simp [assignRanks]
    | succ j =>
      have h1' : j < (assignRanks (n + 1) rest).length := by
        have := h1
        simp [assignRanks] at this
        simpa [assignRanks_length] using this
      have h2' : j < rest.length := by simpa using h2
      have := ih (n + 1) j h1' h2'
      simp only [assignRanks, List.get_cons_succ]
      rw [this]
      congr 2
      omega

theorem assignRanks_mem (l : List Dict) (n : Int) (x : Dict) (h : x ∈ assignRanks n l) :
    ∃ (m : Int) (d : Dict), d ∈ l ∧ x = dictSet d "rank" (.int m) := by
  induction l generalizing n with
  | nil => exact absurd h (by simp [assignRanks])
  | cons d rest ih =>
    rw [assignRanks, List.mem_cons] at h
    cases h with
    | inl h => exact ⟨n, d, List.mem_cons_self d rest, h⟩
    | inr h =>
      obtain ⟨m, d', hd', hx⟩ := ih (n + 1) h
      exact ⟨m, d', List.mem_cons_of_mem d hd', hx⟩

theorem pairwise_desc_assignRanks (l : List Dict) (n : Int)
    (h : l.Pairwise (fun a b => scoreKey b ≤ scoreKey a)) :
    (assignRanks n l).Pairwise (fun a b => scoreKey b ≤ scoreKey a) := by
  induction l generalizing n with
  | nil => exact List.Pairwise.nil
  | cons d rest ih =>
    rw [List.pairwise_cons] at h
    rw [assignRanks, List.pairwise_cons]
    refine ⟨?_, ih (n + 1) h.2⟩
    intro x hx
    obtain ⟨m, d', hd', hxe⟩ := assignRanks_mem rest (n + 1) x hx
    rw [hxe, scoreKey_dictSet_rank, scoreKey_dictSet_rank]
    exact h.1 d' hd'

theorem scoreDescLe_trans (a b c : Dict) (h1 : scoreDescLe a b = true)
    (h2 : scoreDescLe b c = true) : scoreDescLe a c = true := by
  simp only [scoreDescLe, decide_eq_true_eq] at h1 h2 ⊢
  omega

theorem scoreDescLe_total (a b : Dict) : (scoreDescLe a b || scoreDescLe b a) = true := by
  simp only [scoreDescLe, Bool.or_eq_true, decide_eq_true_eq]
  omega

theorem filter_mergeSort_scoreKey (L : List Dict) (s : Int) :
    (L.mergeSort scoreDescLe).filter (fun d => scoreKey d == s) =
      L.filter (fun d => scoreKey d == s) := by
  set p : Dict → Bool := fun d => scoreKey d == s with hp
  have hpair : (L.filter p).Pairwise (fun a b => scoreDescLe a b = true) := by
    refine List.pairwise_of_forall_mem_list ?_
    intro a ha b hb
    have ha2 := (List.mem_filter.mp ha).2
    have hb2 := (List.mem_filter.mp hb).2
    rw [hp] at ha2 hb2
    simp only [beq_iff_eq] at ha2 hb2
    simp [scoreDescLe, ha2, hb2]
  have hsub : (L.filter p).Sublist (L.mergeSort scoreDescLe) :=
    List.sublist_mergeSort scoreDescLe_trans scoreDescLe_total hpair (List.filter_sublist L)
  have hsub2 : ((L.filter p).filter p).Sublist ((L.mergeSort scoreDescLe).filter p) :=
    List.Sublist.filter p hsub
  have hidem : (L.filter p).filter p = L.filter p := by
    rw [List.filter_eq_self]
    intro a ha
    exact (List.mem_filter.mp ha).2
  rw [hidem] at hsub2
  have hperm : ((L.mergeSort scoreDescLe).filter p).Perm (L.filter p) :=
    (List.mergeSort_perm L scoreDescLe).filter p
  exact ((hsub2.eq_of_length (hperm.length_eq.symm)).symm)

/-- Claim C5: a successful `score_profiles` returns a batch of the same
length in which every element carries an integer `probability_score`,
sorted by that score in descending order, with the 1-based `rank` of
each element equal to its position; the batch is exactly the stable
descending sort of the scored copies, and that sort preserves the
relative input order of equal-score profiles (the filter to any fixed
score value is unchanged by sorting). -/
theorem c5_score_profiles (cy : Int) (profiles out : List Dict)
    (h : score_profiles cy profiles = .ok out) :
    out.length = profiles.length ∧
    (∀ d ∈ out, ∃ n : Int, dictGet d "probability_score" = some (.int n)) ∧
    out.Pairwise (fun a b => scoreKey b ≤ scoreKey a) ∧
    (∀ (i : Nat) (hi : i < out.length),
      dictGet (out.get ⟨i, hi⟩) "rank" = some (.int (1 + i))) ∧
    out = assignRanks 1 ((scoredView cy profiles).mergeSort scoreDescLe) ∧
    (∀ s : Int,
      ((scoredView cy profiles).mergeSort scoreDescLe).filter (fun d => scoreKey d == s) =
        (scoredView cy profiles).filter (fun d => scoreKey d == s)) := by
  rw [score_profiles] at h
  cases hm : mapScores cy profiles with
  | error e => rw [hm] at h; cases h
  | ok scored =>
    rw [hm] at h
    cases h
    have hs := mapScores_ok cy profiles scored hm
    subst hs
    refine ⟨?_, ?_, ?_, ?_, rfl, fun s => filter_mergeSort_scoreKey _ s⟩
    · rw [assignRanks_length, List.length_mergeSort, scoredView, List.length_map]
    · intro d hd
      obtain ⟨m, d', hd', hde⟩ := assignRanks_mem _ 1 d hd
      have hd'2 : d' ∈ scoredView cy profiles := List.mem_mergeSort.mp hd'
      rw [scoredView] at hd'2
      obtain ⟨orig, horig, he⟩ := List.mem_map.mp hd'2
      refine ⟨scoreD cy orig, ?_⟩
      rw [hde, dictGet_dictSet_ne _ _ _ _ (by decide), ← he, dictGet_dictSet_self]
    · refine pairwise_desc_assignRanks _ 1 ?_
      have := List.sorted_mergeSort scoreDescLe_trans scoreDescLe_total
        (scoredView cy profiles)
      exact this.imp (fun h => by simpa [scoreDescLe, decide_eq_true_eq] using h)
    · intro i hi
      have hi2 : i < ((scoredView cy profiles).mergeSort scoreDescLe).length := by
        rw [← assignRanks_length 1]
        exact hi
      rw [assignRanks_getElem _ 1 i hi hi2, dictGet_dictSet_self]

/-- Witness for C5 at a concrete three-profile batch with a score tie. -/
theorem c5_score_profiles_witness :
    score_profiles 2026 c5Profiles = .ok c5Out ∧
    c5Out.length = c5Profiles.length ∧
    ((scoredView 2026 c5Profiles).mergeSort scoreDescLe).filter (fun d => scoreKey d == 0) =
      (scoredView 2026 c5Profiles).filter (fun d => scoreKey d == 0) := by
  have h := c5_score_profiles 2026 c5Profiles c5Out rfl
  exact ⟨rfl, h.1, h.2.2.2.2.2 0⟩

/-! ## Store-level lemmas (C8) -/

theorem take_set_of_le {α : Type} (l : List α) (i : Nat) (v : α) (L : Nat) (h : L ≤ i) :
    (l.set i v).take L = l.take L := by
  induction l generalizing i L with
  | nil => simp
  | cons a t ih =>
    cases i with
    | zero =>
      have : L = 0 := Nat.le_zero.mp h
      simp [this]
    | succ j =>
      cases L with
      | zero => simp
      | succ M =>
        simp only [List.set_cons_succ, List.take_succ_cons]
        rw [ih j M (by omega)]

theorem writeRanks_length (rs : List Nat) (st : Store) (n : Int) :
    (writeRanks st rs n).length = st.length := by
  induction rs generalizing st n with
  | nil => rfl
  | cons r rest ih => simp [writeRanks, ih]

theorem writeRanks_take (rs : List Nat) (st : Store) (n : Int) (L : Nat)
    (h : ∀ r ∈ rs, L ≤ r) :
    (writeRanks st rs n).take L = st.take L := by
  induction rs generalizing st n with
  | nil => rfl
  | cons r rest ih =>
    rw [writeRanks, ih _ _ (fun x hx => h x (List.mem_cons_of_mem r hx)),
      take_set_of_le _ _ _ _ (h r (List.mem_cons_self r rest))]

theorem allocScoredCopies_spec (cy : Int) (refs : List Nat) (st st' : Store)
    (copies : List Nat) (h : allocScoredCopies cy st refs = .ok (st', copies)) :
    (∃ ext, st' = st ++ ext) ∧ ∀ r ∈ copies, st.length ≤ r := by
  induction refs generalizing st copies with
  | nil =>
    rw [allocScoredCopies] at h
    cases h
    exact ⟨⟨[], by simp⟩, by simp⟩
  | cons r rest ih =>
    rw [allocScoredCopies] at h
    cases hc : calculate_score cy (storeRead st r) with
    | error e => rw [hc] at h; cases h
    | ok s =>
      rw [hc] at h
      dsimp only [] at h
      cases ha : allocScoredCopies cy
          (st ++ [dictSet (storeRead st r) "probability_score" (.int s)]) rest with
      | error e => rw [ha] at h; cases h
      | ok p =>
        obtain ⟨st2, copies2⟩ := p
        rw [ha] at h
        cases h
        obtain ⟨⟨ext, hext⟩, hge⟩ := ih _ _ ha
        refine ⟨⟨dictSet (storeRead st r) "probability_score" (.int s) :: ext, by
          rw [hext]; simp⟩, ?_⟩
        intro x hx
        rw [List.mem_cons] at hx
        cases hx with
        | inl hx => omega
        | inr hx =>
          have := hge x hx
          simp only [List.length_append, List.length_cons, List.length_nil] at this
          omega

/-- Claim C8: `score_profiles` never mutates the caller's objects: over
the explicit store, a successful run only appends fresh copies and
writes scores and ranks into those copies, so the original store prefix
(every dictionary the caller can reference) is unchanged, and all
returned references point at the freshly allocated objects. -/
theorem c8_no_input_mutation (cy : Int) (st : Store) (refs : List Nat)
    (st' : Store) (outRefs : List Nat)
    (h : score_profiles_st cy st refs = .ok (st', outRefs)) :
    st.length ≤ st'.length ∧ st'.take st.length = st ∧
      ∀ r ∈ outRefs, st.length ≤ r := by
  rw [score_profiles_st] at h
  cases ha : allocScoredCopies cy st refs with
  | error e => rw [ha] at h; cases h
  | ok p =>
    obtain ⟨st1, copies⟩ := p
    rw [ha] at h
    cases h
    obtain ⟨⟨ext, hext⟩, hge⟩ := allocScoredCopies_spec cy refs st st1 copies ha
    have hsortge : ∀ r ∈ copies.mergeSort (fun a b => scoreKeyAt st1 b ≤ scoreKeyAt st1 a),
        st.length ≤ r := fun r hr => hge r (List.mem_mergeSort.mp hr)
    refine ⟨?_, ?_, hsortge⟩
    · rw [writeRanks_length, hext]
      simp
    · rw [writeRanks_take _ _ _ _ hsortge, hext, List.take_left]

/-- Witness for C8: one stored profile, one reference; the original
object at index 0 is untouched and the returned reference is the fresh
copy at index 1. -/
theorem c8_no_input_mutation_witness :
    score_profiles_st 2026 c8Store [0] =
      .ok ([[("title", PyVal.str "Senior Toxicology Lead"),
             ("keywords", PyVal.list [PyVal.str "liver"])],
            [("title", PyVal.str "Senior Toxicology Lead"),
             ("keywords", PyVal.list [PyVal.str "liver"]),
             ("probability_score", PyVal.int 50), ("rank", PyVal.int 1)]], [1]) ∧
    ([[("title", PyVal.str "Senior Toxicology Lead"),
       ("keywords", PyVal.list [PyVal.str "liver"])],
      [("title", PyVal.str "Senior Toxicology Lead"),
       ("keywords", PyVal.list [PyVal.str "liver"]),
       ("probability_score", PyVal.int 50), ("rank", PyVal.int 1)]] : Store).take
        c8Store.length = c8Store := by
  have heq : score_profiles_st 2026 c8Store [0] =
      .ok ([[("title", PyVal.str "Senior Toxicology Lead"),
             ("keywords", PyVal.list [PyVal.str "liver"])],
            [("title", PyVal.str "Senior Toxicology Lead"),
             ("keywords", PyVal.list [PyVal.str "liver"]),
             ("probability_score", PyVal.int 50), ("rank", PyVal.int 1)]], [1]) := by
    have ha : allocScoredCopies 2026 c8Store [0] =
        .ok ([[("title", PyVal.str "Senior Toxicology Lead"),
               ("keywords", PyVal.list [PyVal.str "liver"])],
              [("title", PyVal.str "Senior Toxicology Lead"),
               ("keywords", PyVal.list [PyVal.str "liver"]),
               ("probability_score", PyVal.int 50)]], [1]) := rfl
    rw [score_profiles_st, ha]
    dsimp only []
    rw [List.mergeSort_singleton]
    rfl
  refine ⟨heq, ?_⟩
  exact (c8_no_input_mutation 2026 c8Store [0] _ _ heq).2.1

/-! ## Recovery-parser helper lemmas (C1, C2) -/

theorem dropWhile_cons_of_not {p : Char → Bool} {c : Char} {l : List Char} (h : p c = false) :
    List.dropWhile p (c :: l) = c :: l := by
  simp [List.dropWhile_cons, h]

theorem dropWhile_append_of_not {p : Char → Bool} (u r : List Char)
    (hu : ∀ c ∈ u, p c = false) (hr : List.dropWhile p r = r) :
    List.dropWhile p (u ++ r) = u ++ r := by
  induction u with
  | nil => simpa using hr
  | cons c t ih =>
    rw [List.cons_append, dropWhile_cons_of_not (hu c (List.mem_cons_self c t))]

theorem scanJson_step_other {c : Char} (hq : c ≠ '"') (hb : c ≠ '\\')
    (rest : List Char) (i : Nat) (brace : Int) :
    scanJson (c :: rest) i brace true false = scanJson rest (i + 1) brace true false := by
  rw [scanJson]
  simp [hq, hb]

theorem scanJson_skip_string (u : List Char) (rest : List Char) (i : Nat) (b : Int)
    (hu : ∀ c ∈ u, c ≠ '"' ∧ c ≠ '\\') :
    scanJson (u ++ rest) i b true false = scanJson rest (i + u.length) b true false := by
  induction u generalizing i with
  | nil => simp
  | cons c t ih =>
    obtain ⟨hq, hb⟩ := hu c (List.mem_cons_self c t)
    have hl : i + (c :: t).length = (i + 1) + t.length := by
      simp [List.length_cons]
      omega
    rw [List.cons_append, scanJson_step_other hq hb, hl]
    exact ih (i + 1) (fun x hx => hu x (List.mem_cons_of_mem c hx))

theorem parseStrBody_plain (u : List Char) (rest : List Char)
    (hu : ∀ c ∈ u, c ≠ '"' ∧ c ≠ '\\' ∧ 32 ≤ c.toNat) :
    parseStrBody (u ++ '"' :: rest) = some (u, rest) := by
  induction u with
  | nil =>
    rw [List.nil_append, parseStrBody.eq_def]
    simp
  | cons c t ih =>
    obtain ⟨hq, hb, hc⟩ := hu c (List.mem_cons_self c t)
    rw [List.cons_append, parseStrBody.eq_def]
    simp only [if_neg hq, if_neg hb, if_pos hc]
    rw [ih (fun x hx => hu x (List.mem_cons_of_mem c hx))]
    rfl

theorem splitLines_no_nl (u : List Char) (hu : ∀ c ∈ u, c ≠ '\n') :
    splitLines u = [u] := by
  induction u with
  | nil => rfl
  | cons c t ih =>
    rw [splitLines]
    rw [if_neg (hu c (List.mem_cons_self c t)), ih (fun x hx => hu x (List.mem_cons_of_mem c hx))]

theorem splitLines_append_nl (u rest : List Char) (hu : ∀ c ∈ u, c ≠ '\n') :
    splitLines (u ++ '\n' :: rest) = u :: splitLines rest := by
  induction u with
  | nil =>
    rw [List.nil_append, splitLines, if_pos rfl]
  | cons c t ih =>
    rw [List.cons_append, splitLines, if_neg (hu c (List.mem_cons_self c t)),
      ih (fun x hx => hu x (List.mem_cons_of_mem c hx))]

theorem joinLines_single (u : List Char) : joinLines [u] = u := by
  simp [joinLines, List.intercalate]

theorem parse_json_ok_of (content0 c1 c2 : List Char) (e : Nat) (v : JsonV)
    (h1 : pyStripL content0 = c1) (h2 : c1 ≠ []) (h3 : stripMarkdown c1 = c2)
    (h4 : findCharIdx '{' c2 = some 0)
    (h5 : scanJson c2 0 0 false false = (some e, 0, false)) (h6 : 0 < e)
    (h7 : c2.take (e + 1) = c2) (h8 : jsonLoads c2 = some v) :
    parse_json content0 = .ok v := by
  rw [parse_json, h1]
  rw [if_neg (by simpa [List.isEmpty_iff] using h2)]
  simp only [h3, h4, List.drop_zero, h5, Nat.sub_zero, if_pos h6, h7, h8]

theorem parse_json_repair_ok_of (content0 c1 c2 : List Char) (b : Int) (instr : Bool)
    (v : JsonV)
    (h1 : pyStripL content0 = c1) (h2 : c1 ≠ []) (h3 : stripMarkdown c1 = c2)
    (h4 : findCharIdx '{' c2 = some 0)
    (h5 : scanJson c2 0 0 false false = (Option.none, b, instr)) (hb : 0 < b)
    (h8 : jsonLoads (c2 ++ ((if instr then ['"'] else []) ++ '\n' ::
      List.replicate b.toNat '}')) = some v) :
    parse_json content0 = .ok v := by
  rw [parse_json, h1]
  rw [if_neg (by simpa [List.isEmpty_iff] using h2)]
  simp only [h3, h4, List.drop_zero, h5, repairSlice, if_pos hb, List.append_assoc, h8]

theorem startsWithL_cons_ne {a b : Char} (h : (a == b) = false) (as bs : List Char) :
    startsWithL (a :: as) (b :: bs) = false := by
  simp [startsWithL, h]

theorem c1_scan (W : List Char) (hw : ∀ c ∈ W, c ≠ '"' ∧ c ≠ '\\') :
    scanJson (('{' :: '"' :: 'n' :: 'o' :: 't' :: 'e' :: '"' :: ':' :: ' ' :: '"' :: []) ++
        (W ++ ('"' :: ',' :: ' ' :: '"' :: 'x' :: '"' :: ':' :: ' ' :: '1' :: '}' :: [])))
      0 0 false false = (some (W.length + 19), 0, false) := by
  simp only [List.cons_append, List.nil_append]
  simp [scanJson]
  rw [scanJson_skip_string W _ 10 1 hw]
  simp [scanJson]
  omega

theorem c1_loads (W : List Char) (hw : ∀ c ∈ W, c ≠ '"' ∧ c ≠ '\\' ∧ 32 ≤ c.toNat) :
    jsonLoads (('{' :: '"' :: 'n' :: 'o' :: 't' :: 'e' :: '"' :: ':' :: ' ' :: '"' :: []) ++
        (W ++ ('"' :: ',' :: ' ' :: '"' :: 'x' :: '"' :: ':' :: ' ' :: '1' :: '}' :: []))) =
      some (.obj [("note", .str (String.mk W)), ("x", .num 1)]) := by
  simp only [List.cons_append, List.nil_append]
  rw [jsonLoads]
  have hlen : ('{' :: '"' :: 'n' :: 'o' :: 't' :: 'e' :: '"' :: ':' :: ' ' :: '"' ::
      (W ++ ('"' :: ',' :: ' ' :: '"' :: 'x' :: '"' :: ':' :: ' ' :: '1' :: '}' :: []))).length
      = (W.length + 20) := by
    simp [List.length_append]
  rw [hlen]
  have e20 : W.length + 20 + 1 = (W.length + 20) + 1 := rfl
  rw [e20, parseVal]
  simp [skipWs, List.dropWhile_cons, isJsonWs]
  have f20 : W.length + 20 = (W.length + 19) + 1 := by omega
  rw [f20, parseMembers]
  simp [parseStrBody, List.dropWhile_cons, isJsonWs, skipWs]
  have f19 : W.length + 19 = (W.length + 18) + 1 := by omega
  rw [f19, parseVal]
  simp [List.dropWhile_cons, isJsonWs, skipWs]
  rw [parseStrBody_plain W _ hw]
  simp [List.dropWhile_cons, isJsonWs, skipWs]
  have f18 : W.length + 18 = (W.length + 17) + 1 := by omega
  rw [f18, parseMembers]
  simp [parseStrBody, List.dropWhile_cons, isJsonWs, skipWs]
  rw [f18, parseVal]
  simp [parseJsonInt, List.dropWhile_cons, List.takeWhile, isJsonWs, skipWs]


/-- Claim C1: the recovery parser returns exactly the embedded object
for any clean one-line JSON object of the form
`\x7b"note": "<w>", "x": 1\x7d`, whatever printable brace-laden text
(no quote, no backslash) the string value `w` holds: braces inside
string literals do not affect the nesting walk. -/
theorem c1_recover_json_braces_in_strings (w : String)
    (hw : ∀ c ∈ w.data, c ≠ '"' ∧ c ≠ '\\' ∧ 32 ≤ c.toNat) :
    recover_json ("\x7b\"note\": \"" ++ w ++ "\", \"x\": 1\x7d") =
      .ok (.obj [("note", .str w), ("x", .num 1)]) := by
  have hA : ("\x7b\"note\": \"" : String).data =
      '{' :: '"' :: 'n' :: 'o' :: 't' :: 'e' :: '"' :: ':' :: ' ' :: '"' :: [] := rfl
  have hB : ("\", \"x\": 1\x7d" : String).data =
      '"' :: ',' :: ' ' :: '"' :: 'x' :: '"' :: ':' :: ' ' :: '1' :: '}' :: [] := rfl
  have hdata : ("\x7b\"note\": \"" ++ w ++ "\", \"x\": 1\x7d").data =
      ('{' :: '"' :: 'n' :: 'o' :: 't' :: 'e' :: '"' :: ':' :: ' ' :: '"' :: []) ++
        (w.data ++ ('"' :: ',' :: ' ' :: '"' :: 'x' :: '"' :: ':' :: ' ' :: '1' :: '}' :: [])) := by
    rw [String.data_append, String.data_append, hA, hB, List.append_assoc]
  rw [recover_json, hdata]
  refine parse_json_ok_of _
      (('{' :: '"' :: 'n' :: 'o' :: 't' :: 'e' :: '"' :: ':' :: ' ' :: '"' :: []) ++
        (w.data ++ ('"' :: ',' :: ' ' :: '"' :: 'x' :: '"' :: ':' :: ' ' :: '1' :: '}' :: [])))
      (('{' :: '"' :: 'n' :: 'o' :: 't' :: 'e' :: '"' :: ':' :: ' ' :: '"' :: []) ++
        (w.data ++ ('"' :: ',' :: ' ' :: '"' :: 'x' :: '"' :: ':' :: ' ' :: '1' :: '}' :: [])))
      (w.data.length + 19) _ ?_ ?_ ?_ ?_ ?_ (by omega) ?_ ?_
  · rw [pyStripL]
    rw [show (('{' :: '"' :: 'n' :: 'o' :: 't' :: 'e' :: '"' :: ':' :: ' ' :: '"' :: []) ++
        (w.data ++ ('"' :: ',' :: ' ' :: '"' :: 'x' :: '"' :: ':' :: ' ' :: '1' :: '}' :: []))) =
        ('{' :: ('"' :: 'n' :: 'o' :: 't' :: 'e' :: '"' :: ':' :: ' ' :: '"' ::
          (w.data ++ ('"' :: ',' :: ' ' :: '"' :: 'x' :: '"' :: ':' :: ' ' :: '1' :: '}' :: []))))
        from by simp]
    rw [dropWhile_cons_of_not (show isPySpace '{' = false from rfl)]
    have hrev : ('{' :: ('"' :: 'n' :: 'o' :: 't' :: 'e' :: '"' :: ':' :: ' ' :: '"' ::
        (w.data ++ ('"' :: ',' :: ' ' :: '"' :: 'x' :: '"' :: ':' :: ' ' :: '1' :: '}' :: [])))).reverse
        = '}' :: ('1' :: ' ' :: ':' :: '"' :: 'x' :: '"' :: ' ' :: ',' :: '"' ::
          (w.data.reverse ++ ('"' :: ' ' :: ':' :: '"' :: 'e' :: 't' :: 'o' :: 'n' :: '"' :: '{' :: []))) := by
      simp
    rw [hrev, dropWhile_cons_of_not (show isPySpace '}' = false from rfl), ← hrev,
      List.reverse_reverse]
  · simp
  · have hsw : startsWithL fence3 (('{' :: '"' :: 'n' :: 'o' :: 't' :: 'e' :: '"' :: ':' :: ' ' ::
        '"' :: []) ++ (w.data ++ ('"' :: ',' :: ' ' :: '"' :: 'x' :: '"' :: ':' :: ' ' :: '1' ::
        '}' :: []))) = false := by
      rw [show fence3 = backtickChar :: backtickChar :: backtickChar :: [] from rfl]
      rw [List.cons_append]
      exact startsWithL_cons_ne (by decide) _ _
    simp only [stripMarkdown, hsw, Bool.false_eq_true, if_false]
  · simp [findCharIdx]
  · exact c1_scan w.data (fun c hc => ⟨(hw c hc).1, (hw c hc).2.1⟩)
  · apply List.take_of_length_le
    simp [List.length_append]
  · exact c1_loads w.data hw

/-- Witness for C1 at the example of the claim: the value contains an
embedded brace pair. -/
theorem c1_recover_json_braces_in_strings_witness :
    recover_json "\x7b\"note\": \"a \x7bweird\x7d value\", \"x\": 1\x7d" =
      .ok (.obj [("note", .str "a \x7bweird\x7d value"), ("x", .num 1)]) := by
  have h := c1_recover_json_braces_in_strings "a \x7bweird\x7d value" (by decide)
  simpa using h

theorem pyStripL_eq_self_of (l : List Char) (h1 : List.dropWhile isPySpace l = l)
    (h2 : List.dropWhile isPySpace l.reverse = l.reverse) : pyStripL l = l := by
  rw [pyStripL, h1, h2, List.reverse_reverse]

theorem c2_scan (W : List Char) (hw : ∀ c ∈ W, c ≠ '"' ∧ c ≠ '\\') :
    scanJson (('{' :: '"' :: 'a' :: '"' :: ':' :: ' ' :: '1' :: ',' :: ' ' :: '"' :: 'b' ::
        '"' :: ':' :: ' ' :: '"' :: []) ++ W) 0 0 false false = (Option.none, 1, true) := by
  simp only [List.cons_append, List.nil_append]
  simp [scanJson]
  have h := scanJson_skip_string W [] 15 1 hw
  simp [List.append_nil] at h
  rw [h]
  rfl

theorem c2_loads (W : List Char) (hw : ∀ c ∈ W, c ≠ '"' ∧ c ≠ '\\' ∧ 32 ≤ c.toNat) :
    jsonLoads (('{' :: '"' :: 'a' :: '"' :: ':' :: ' ' :: '1' :: ',' :: ' ' :: '"' :: 'b' ::
        '"' :: ':' :: ' ' :: '"' :: []) ++ (W ++ ('"' :: '\n' :: '}' :: []))) =
      some (.obj [("a", .num 1), ("b", .str (String.mk W))]) := by
  simp only [List.cons_append, List.nil_append]
  rw [jsonLoads]
  have hlen : ('{' :: '"' :: 'a' :: '"' :: ':' :: ' ' :: '1' :: ',' :: ' ' :: '"' :: 'b' ::
      '"' :: ':' :: ' ' :: '"' :: (W ++ ('"' :: '\n' :: '}' :: []))).length
      = (W.length + 18) := by
    simp [List.length_append]
  rw [hlen]
  have e18 : W.length + 18 + 1 = (W.length + 18) + 1 := rfl
  rw [e18, parseVal]
  simp [skipWs, List.dropWhile_cons, isJsonWs]
  have f18 : W.length + 18 = (W.length + 17) + 1 := by omega
  rw [f18, parseMembers]
  simp [parseStrBody, List.dropWhile_cons, isJsonWs, skipWs]
  have f17 : W.length + 17 = (W.length + 16) + 1 := by omega
  rw [f17, parseVal]
  simp [parseJsonInt, List.dropWhile_cons, List.takeWhile, isJsonWs, skipWs]
  rw [f17, parseMembers]
  simp [parseStrBody, List.dropWhile_cons, isJsonWs, skipWs]
  have f16 : W.length + 16 = (W.length + 15) + 1 := by omega
  rw [f16, parseVal]
  simp [List.dropWhile_cons, isJsonWs, skipWs]
  rw [parseStrBody_plain W _ hw]
  simp [List.dropWhile_cons, isJsonWs, skipWs]

/-- Claim C2: on fenced output truncated inside a string value (no
closing fence, quote or brace), the recovery parser strips the fence,
takes everything from the first brace, closes the open string literal,
appends the missing closing brace and parses the repaired object with
the keys seen so far, whatever printable text (no quote, no backslash,
and no character of Python's `strip()` whitespace class) the truncated
value `w` holds. -/
theorem c2_recover_json_truncation_repair (w : String)
    (hw : ∀ c ∈ w.data, c ≠ '"' ∧ c ≠ '\\' ∧ 32 ≤ c.toNat ∧ isPySpace c = false) :
    recover_json ("```json\n\x7b\"a\": 1, \"b\": \"" ++ w) =
      .ok (.obj [("a", .num 1), ("b", .str w)]) := by
  have hA : ("```json\n\x7b\"a\": 1, \"b\": \"" : String).data =
      backtickChar :: backtickChar :: backtickChar :: 'j' :: 's' :: 'o' :: 'n' :: '\n' ::
      '{' :: '"' :: 'a' :: '"' :: ':' :: ' ' :: '1' :: ',' :: ' ' :: '"' :: 'b' ::
      '"' :: ':' :: ' ' :: '"' :: [] := rfl
  have hdata : ("```json\n\x7b\"a\": 1, \"b\": \"" ++ w).data =
      (backtickChar :: backtickChar :: backtickChar :: 'j' :: 's' :: 'o' :: 'n' :: '\n' ::
       '{' :: '"' :: 'a' :: '"' :: ':' :: ' ' :: '1' :: ',' :: ' ' :: '"' :: 'b' ::
       '"' :: ':' :: ' ' :: '"' :: []) ++ w.data := by
    rw [String.data_append, hA]
  have hwns : ∀ c ∈ w.data.reverse, isPySpace c = false := by
    intro c hc
    exact (hw c (List.mem_reverse.mp hc)).2.2.2
  have hstrip2 : pyStripL (('{' :: '"' :: 'a' :: '"' :: ':' :: ' ' :: '1' :: ',' :: ' ' ::
      '"' :: 'b' :: '"' :: ':' :: ' ' :: '"' :: []) ++ w.data) =
      ('{' :: '"' :: 'a' :: '"' :: ':' :: ' ' :: '1' :: ',' :: ' ' ::
      '"' :: 'b' :: '"' :: ':' :: ' ' :: '"' :: []) ++ w.data := by
    refine pyStripL_eq_self_of _ ?_ ?_
    · rw [List.cons_append]
      exact dropWhile_cons_of_not rfl
    · rw [List.reverse_append]
      exact dropWhile_append_of_not _ _ hwns rfl
  rw [recover_json, hdata]
  refine parse_json_repair_ok_of _
      ((backtickChar :: backtickChar :: backtickChar :: 'j' :: 's' :: 'o' :: 'n' :: '\n' ::
       '{' :: '"' :: 'a' :: '"' :: ':' :: ' ' :: '1' :: ',' :: ' ' :: '"' :: 'b' ::
       '"' :: ':' :: ' ' :: '"' :: []) ++ w.data)
      (('{' :: '"' :: 'a' :: '"' :: ':' :: ' ' :: '1' :: ',' :: ' ' ::
       '"' :: 'b' :: '"' :: ':' :: ' ' :: '"' :: []) ++ w.data)
      1 true _ ?_ ?_ ?_ ?_ ?_ (by norm_num) ?_
  · refine pyStripL_eq_self_of _ ?_ ?_
    · rw [List.cons_append]
      exact dropWhile_cons_of_not rfl
    · rw [List.reverse_append]
      exact dropWhile_append_of_not _ _ hwns rfl
  · simp
  · have hsplit : splitLines ((backtickChar :: backtickChar :: backtickChar :: 'j' :: 's' ::
        'o' :: 'n' :: '\n' :: '{' :: '"' :: 'a' :: '"' :: ':' :: ' ' :: '1' :: ',' :: ' ' ::
        '"' :: 'b' :: '"' :: ':' :: ' ' :: '"' :: []) ++ w.data) =
        [backtickChar :: backtickChar :: backtickChar :: 'j' :: 's' :: 'o' :: 'n' :: [],
         ('{' :: '"' :: 'a' :: '"' :: ':' :: ' ' :: '1' :: ',' :: ' ' ::
          '"' :: 'b' :: '"' :: ':' :: ' ' :: '"' :: []) ++ w.data] := by
      rw [show ((backtickChar :: backtickChar :: backtickChar :: 'j' :: 's' :: 'o' :: 'n' ::
          '\n' :: '{' :: '"' :: 'a' :: '"' :: ':' :: ' ' :: '1' :: ',' :: ' ' :: '"' :: 'b' ::
          '"' :: ':' :: ' ' :: '"' :: []) ++ w.data) =
          ((backtickChar :: backtickChar :: backtickChar :: 'j' :: 's' :: 'o' :: 'n' :: []) ++
           '\n' :: (('{' :: '"' :: 'a' :: '"' :: ':' :: ' ' :: '1' :: ',' :: ' ' ::
           '"' :: 'b' :: '"' :: ':' :: ' ' :: '"' :: []) ++ w.data)) from by simp]
      rw [splitLines_append_nl _ _ (by decide)]
      rw [splitLines_no_nl _ ?_]
      intro c hc
      rw [List.mem_append] at hc
      cases hc with
      | inl hc =>
        fin_cases hc <;> decide
      | inr hc =>
        have := (hw c hc).2.2.2
        rintro rfl
        exact absurd this (by decide)
    have hc2 : startsWithL fence3 (('{' :: '"' :: 'a' :: '"' :: ':' :: ' ' :: '1' :: ',' ::
        ' ' :: '"' :: 'b' :: '"' :: ':' :: ' ' :: '"' :: []) ++ w.data) = false := by
      rw [List.cons_append, show fence3 = backtickChar :: backtickChar :: backtickChar :: []
        from rfl, startsWithL_cons_ne (by decide)]
    have hmd : mdCollect [backtickChar :: backtickChar :: backtickChar :: 'j' :: 's' :: 'o' ::
        'n' :: [], ('{' :: '"' :: 'a' :: '"' :: ':' :: ' ' :: '1' :: ',' :: ' ' ::
        '"' :: 'b' :: '"' :: ':' :: ' ' :: '"' :: []) ++ w.data] false [] =
        [('{' :: '"' :: 'a' :: '"' :: ':' :: ' ' :: '1' :: ',' :: ' ' ::
          '"' :: 'b' :: '"' :: ':' :: ' ' :: '"' :: []) ++ w.data] := by
      rw [mdCollect, if_pos (by decide), mdCollect, hstrip2, hc2]
      simp [mdCollect]
    rw [stripMarkdown]
    rw [if_pos (by simp [fence3, startsWithL, List.cons_append])]
    rw [hsplit]
    simp only [hmd]
    rw [if_pos (by simp)]
    rw [joinLines_single, hstrip2]
  · rw [List.cons_append]
    simp [findCharIdx]
  · exact c2_scan w.data (fun c hc => ⟨(hw c hc).1, (hw c hc).2.1⟩)
  · have h := c2_loads w.data (fun c hc => ⟨(hw c hc).1, (hw c hc).2.1, (hw c hc).2.2.1⟩)
    simpa [List.append_assoc] using h

/-- Witness for C2 at the example of the claim: the fenced, truncated
text of the spec recovers the object with the keys parsed so far. -/
theorem c2_recover_json_truncation_repair_witness :
    recover_json "```json\n\x7b\"a\": 1, \"b\": \"te" =
      .ok (.obj [("a", .num 1), ("b", .str "te")]) := by
  have h := c2_recover_json_truncation_repair "te" (by decide)
  simpa using h
